import Mathlib

/-!
# SSH signature production (`pkg/signature/ssh/sign.go`)

A shallow embedding of the signing path of `pkg/signature/ssh/sign.go`:
the `messageWrapper` that is signed, the unexported `sign` pipeline, the
`Signer` adapter and the exported `Sign` function.

Go values are embedded as follows.

* A Go `string` or `[]byte` is a list of bytes, a byte being a `Fin 256`.
* A Go `error` is a `GoError`; a possibly-nil error is an `Option GoError`.
* A Go multi-value return `(x, err)` is a pair of options, so that the
  combination "no value and no error" stays expressible.
* Everything the file calls but does not define - the SHA-512 digest, the
  private-key parser, the armoring step and the randomness source - is a
  field of `Lib`, and the signer interfaces are records of functions.
* Calls that leave the function (reads of the message source, private-key
  operations, armoring) are recorded, in order, in a list of `Event`s that
  is returned next to the Go result.
-/

namespace SSHSig

/-! ## Bytes and strings -/

/-- One octet. -/
abbrev Byte := Fin 256

/-- A Go `string` / `[]byte`: a finite sequence of octets. -/
abbrev Bytes := List Byte

/-- The bytes of a string literal. Every literal of `sign.go` is ASCII, where
    the code point of a character is its single UTF-8 byte. -/
def str (s : String) : Bytes := s.toList.map (fun c => Fin.ofNat c.toNat)

/-- A Go `error` value: the sentinel `io.EOF`, or any other error. -/
inductive GoError where
  | eof
  | other (msg : String)
deriving DecidableEq, Repr

/-! ## Declarations of `sign.go` -/

/-- The struct `messageWrapper` (sign.go, lines 31-36). -/
structure messageWrapper where
  Namespace : Bytes
  Reserved : Bytes
  HashAlgorithm : Bytes
  Hash : Bytes
deriving DecidableEq, Repr

/-- The constant `magicHeader` (sign.go, line 50). -/
def magicHeader : Bytes := str "SSHSIG"

/-- The constant `defaultHashAlgorithm` (sign.go, line 51). -/
def defaultHashAlgorithm : Bytes := str "sha512"

/-! ## The SSH wire encoding -/

/-- Modelled from the spec: `appendU32` of `golang.org/x/crypto/ssh` is not
    under `src/`. A length is written as 4 bytes, most significant first; the
    library converts the length to `uint32` first, which is the `% 256` of the
    top byte. -/
def appendU32 (buf : Bytes) (n : Nat) : Bytes :=
  buf ++ [Fin.ofNat (n / 2 ^ 24 % 256), Fin.ofNat (n / 2 ^ 16 % 256),
          Fin.ofNat (n / 2 ^ 8 % 256), Fin.ofNat (n % 256)]

/-- Modelled from the spec: the `reflect.String` case of `ssh.Marshal` is not
    under `src/`. A string field is its 4-byte big-endian length followed by
    its bytes. -/
def marshalString (out : Bytes) (s : Bytes) : Bytes :=
  appendU32 out s.length ++ s

/-- Modelled from the spec: `ssh.Marshal` of `golang.org/x/crypto/ssh` is not
    under `src/`. Applied to a `messageWrapper` it encodes the fields in
    declaration order, each one length-prefixed. -/
def Marshal (sp : messageWrapper) : Bytes :=
  marshalString (marshalString (marshalString (marshalString [] sp.Namespace)
    sp.Reserved) sp.HashAlgorithm) sp.Hash

/-- Modelled from the spec: `parseString` of `golang.org/x/crypto/ssh`, with
    which a verifier reads one field, is not under `src/`. It reads a 4-byte
    big-endian length and then that many bytes, and returns the field and the
    rest of the input; it fails when the input is too short. The library
    compares the length with the number of remaining bytes converted to
    `uint32`, which is the `% 2 ^ 32`. -/
def parseString (inp : Bytes) : Option (Bytes × Bytes) :=
  match inp with
  | b0 :: b1 :: b2 :: b3 :: rest =>
    let length := b0.val * 2 ^ 24 + b1.val * 2 ^ 16 + b2.val * 2 ^ 8 + b3.val
    if rest.length % 2 ^ 32 < length then none
    else some (rest.take length, rest.drop length)
  | _ => none

/-- Modelled from the spec: the verifier's decoding of a `messageWrapper`
    (`ssh.Unmarshal`) is not under `src/`. It reads the four length-prefixed
    fields in order and accepts only when no byte is left over. -/
def Unmarshal (data : Bytes) : Option messageWrapper :=
  match parseString data with
  | none => none
  | some (ns, d1) =>
    match parseString d1 with
    | none => none
    | some (rsv, d2) =>
      match parseString d2 with
      | none => none
      | some (alg, d3) =>
        match parseString d3 with
        | none => none
        | some (h, d4) =>
          if d4.length ≠ 0 then none
          else some { Namespace := ns, Reserved := rsv, HashAlgorithm := alg, Hash := h }

/-! ## Collaborators -/

/-- The value `ssh.PublicKey`, as far as `sign.go` looks at it: `keyType` is
    the result of its method `Type()`, `blob` the key material. -/
structure PublicKey where
  keyType : Bytes
  blob : Bytes
deriving DecidableEq, Repr

/-- The struct `ssh.Signature`. -/
structure Signature where
  Format : Bytes
  Blob : Bytes
deriving DecidableEq, Repr

/-- The randomness source `rand.Reader`, an unbounded stream of bytes. -/
abbrev Rand := Nat → Byte

/-- The interface `ssh.Signer`: `PublicKey()` and `Sign(rand, data)`. -/
structure SSHSigner where
  PublicKey : PublicKey
  Sign : Rand → Bytes → Option Signature × Option GoError

/-- The interface `ssh.AlgorithmSigner`: an `ssh.Signer` that also has
    `SignWithAlgorithm(rand, data, algorithm)`. -/
structure AlgorithmSigner extends SSHSigner where
  SignWithAlgorithm : Rand → Bytes → Bytes → Option Signature × Option GoError

/-- The dynamic value behind an `ssh.Signer` interface value: the type
    assertion `s.(ssh.AlgorithmSigner)` succeeds on `algorithm` only. -/
inductive SignerValue where
  | plain (s : SSHSigner)
  | algorithm (s : AlgorithmSigner)

/-- The `PublicKey()` method of an `ssh.Signer` value. -/
def SignerValue.PublicKey : SignerValue → PublicKey
  | .plain s => s.PublicKey
  | .algorithm s => s.PublicKey

/-- Modelled from the spec: the constant `ssh.KeyAlgoRSA` is not under
    `src/`; it is the key type name of RSA keys. -/
def KeyAlgoRSA : Bytes := str "ssh-rsa"

/-- Modelled from the spec: the constant `ssh.KeyAlgoRSASHA512` is not under
    `src/`; it is the RSA/SHA-512 signature algorithm name. -/
def KeyAlgoRSASHA512 : Bytes := str "rsa-sha2-512"

/-- What `sign.go` imports and calls.
    * `sha512 m` is the digest that a `sha512.New()` accumulator returns from
      `Sum(nil)` after exactly the bytes `m` were written to it; it is 64
      bytes long.
    * `ParsePrivateKey` is `ssh.ParsePrivateKey`.
    * `Armor` is the package's `Armor`, defined in another file; its first
      argument is a pointer and may be nil.
    * `rand` is `rand.Reader`. -/
structure Lib where
  sha512 : Bytes → { d : Bytes // d.length = 64 }
  ParsePrivateKey : Bytes → Option SignerValue × Option GoError
  Armor : Option Signature → PublicKey → Bytes
  rand : Rand

/-- An `io.Reader` that terminates: it hands out `chunks`, one per `Read`
    call, and from then on returns no bytes and the error `final` (`io.EOF`
    at the end of a complete message, another error on failure). A `Read` that
    returns bytes together with an error acts on `io.Copy` and `io.ReadAll`
    like a chunk followed by that error. -/
structure Reader where
  chunks : List Bytes
  final : GoError

/-- A call that leaves `sign.go`, recorded in the order in which it is made. -/
inductive Event where
  | parsePrivateKey (pem : Bytes)
  | read
  | sign (data : Bytes)
  | signWithAlgorithm (data : Bytes) (algorithm : Bytes)
  | armor (sig : Option Signature) (pk : PublicKey)
deriving DecidableEq, Repr

/-- Whether an event is a private-key operation of a signer. -/
def Event.isPrivateKeyOp : Event → Bool
  | .sign _ => true
  | .signWithAlgorithm _ _ => true
  | _ => false

/-! ## `io.Copy` and `io.ReadAll` -/

/-- The copy loop of `io.Copy(hf, m)` into a hash accumulator `hf`, whose
    `Write` cannot fail: every chunk read is appended to the bytes written so
    far; the loop ends at the first error of the source, which is dropped when
    it is `io.EOF` and returned otherwise. The result is the content of the
    accumulator, the error and the `Read` calls made. -/
def ioCopy (written : Bytes) : List Bytes → GoError → Bytes × Option GoError × List Event
  | [], final =>
    (written, (if final = GoError.eof then none else some final), [Event.read])
  | c :: cs, final =>
    let r := ioCopy (written ++ c) cs final
    (r.1, r.2.1, Event.read :: r.2.2)

/-- The loop of `io.ReadAll(message)`: the bytes read so far grow by every
    chunk; at the first error the bytes are returned, with no error when it is
    `io.EOF` and with the error otherwise. -/
def ioReadAll (b : Bytes) : List Bytes → GoError → Bytes × Option GoError × List Event
  | [], final =>
    (b, (if final = GoError.eof then none else some final), [Event.read])
  | c :: cs, final =>
    let r := ioReadAll (b ++ c) cs final
    (r.1, r.2.1, Event.read :: r.2.2)

/-! ## The functions of `sign.go` -/

/-- Lines 66-73 of `sign`: the byte string handed to the signer, as a function
    of the digest `mh`. -/
def dataMessageWrapper (mh : Bytes) : Bytes :=
  let sp : messageWrapper :=
    { Namespace := str "file"
      Reserved := []
      HashAlgorithm := defaultHashAlgorithm
      Hash := mh }
  let dataMessageWrapper := Marshal sp
  magicHeader ++ dataMessageWrapper

/-- Lines 78-81 of `sign`: the algorithm name requested from the signer. -/
def algo (s : AlgorithmSigner) : Bytes :=
  if s.PublicKey.keyType = KeyAlgoRSA then KeyAlgoRSASHA512 else []

/-- The function `sign` (sign.go, lines 59-87). -/
def sign (lib : Lib) (s : AlgorithmSigner) (m : Reader) :
    (Option Signature × Option GoError) × List Event :=
  let copied := ioCopy [] m.chunks m.final
  match copied.2.1 with
  | some err => ((none, some err), copied.2.2)
  | none =>
    let mh := (lib.sha512 copied.1).val
    let data := dataMessageWrapper mh
    let r := s.SignWithAlgorithm lib.rand data (algo s)
    let events := copied.2.2 ++ [Event.signWithAlgorithm data (algo s)]
    match r.2 with
    | some err => ((none, some err), events)
    | none => ((r.1, none), events)

/-- The struct `Signer` (sign.go, lines 90-92). -/
structure Signer where
  signer : AlgorithmSigner

/-- The method `Signer.PublicKey` (sign.go, lines 95-97). -/
def Signer.PublicKey (s : Signer) : Option PublicKey × Option GoError :=
  (some s.signer.PublicKey, none)

/-- The method `Signer.SignMessage` (sign.go, lines 100-110). -/
def Signer.SignMessage (lib : Lib) (s : Signer) (message : Reader) :
    (Option Bytes × Option GoError) × List Event :=
  let read := ioReadAll [] message.chunks message.final
  match read.2.1 with
  | some err => ((none, some err), read.2.2)
  | none =>
    let b := read.1
    let r := s.signer.Sign lib.rand b
    let events := read.2.2 ++ [Event.sign b]
    match r.2 with
    | some err => ((none, some err), events)
    | none =>
      ((some (lib.Armor r.1 s.signer.PublicKey), none),
        events ++ [Event.armor r.1 s.signer.PublicKey])

/-- The function `Sign` (sign.go, lines 115-133). The second early return
    hands back the variable `err` of the parse, which is nil at that point. -/
def Sign (lib : Lib) (sshPrivateKey : Bytes) (data : Reader) :
    (Option Bytes × Option GoError) × List Event :=
  let parsed := lib.ParsePrivateKey sshPrivateKey
  let err := parsed.2
  let events := [Event.parsePrivateKey sshPrivateKey]
  match err with
  | some e => ((none, some e), events)
  | none =>
    match parsed.1 with
    | some (SignerValue.algorithm as) =>
      let r := sign lib as data
      match r.1.2 with
      | some e => ((none, some e), events ++ r.2)
      | none =>
        let pk := (SignerValue.algorithm as).PublicKey
        ((some (lib.Armor r.1.1 pk), none), events ++ r.2 ++ [Event.armor r.1.1 pk])
    | _ => ((none, err), events)


/-! ## Concrete collaborators, for evaluating the definitions -/

/-- A stand-in digest: 64 bytes, each the length of the input modulo 256. -/
def exampleDigest (m : Bytes) : { d : Bytes // d.length = 64 } :=
  ⟨List.replicate 64 (Fin.ofNat m.length), List.length_replicate 64 _⟩

/-- A signer with an RSA public key whose signature echoes the algorithm name
    and the data. -/
def rsaSigner : AlgorithmSigner :=
  { PublicKey := { keyType := str "ssh-rsa", blob := [1, 2, 3] }
    Sign := fun _ data => (some { Format := str "ssh-rsa", Blob := data }, none)
    SignWithAlgorithm := fun _ data a => (some { Format := a, Blob := data }, none) }

/-- A signer with an Ed25519 public key whose private-key operations fail,
    while still handing back a signature value. -/
def failingSigner : AlgorithmSigner :=
  { PublicKey := { keyType := str "ssh-ed25519", blob := [4, 5] }
    Sign := fun _ _ => (some { Format := [], Blob := [] }, some (GoError.other "agent refused operation"))
    SignWithAlgorithm := fun _ _ _ =>
      (some { Format := [], Blob := [] }, some (GoError.other "agent refused operation")) }

/-- A library whose parser accepts nothing. -/
def exampleLib : Lib :=
  { sha512 := exampleDigest
    ParsePrivateKey := fun _ => (none, some (GoError.other "ssh: no key found"))
    Armor := fun sig pk =>
      match sig with
      | some sg => pk.blob ++ sg.Format ++ sg.Blob
      | none => pk.blob
    rand := fun _ => 0 }

/-! ## Lemmas -/

theorem ioCopy_eq (chunks : List Bytes) (final : GoError) (written : Bytes) :
    ioCopy written chunks final =
      (written ++ chunks.flatten, (if final = GoError.eof then none else some final),
        List.replicate (chunks.length + 1) Event.read) := by
  induction chunks generalizing written with
  | nil => simp [ioCopy]
  | cons c cs ih => simp [ioCopy, ih, List.replicate_succ]

theorem ioReadAll_eq (chunks : List Bytes) (final : GoError) (b : Bytes) :
    ioReadAll b chunks final =
      (b ++ chunks.flatten, (if final = GoError.eof then none else some final),
        List.replicate (chunks.length + 1) Event.read) := by
  induction chunks generalizing b with
  | nil => simp [ioReadAll]
  | cons c cs ih => simp [ioReadAll, ih, List.replicate_succ]

theorem val_ofNat_mod (n : Nat) : (Fin.ofNat (n % 256) : Byte).val = n % 256 := by
  simp [Fin.ofNat]

theorem sign_eof (lib : Lib) (s : AlgorithmSigner) (chunks : List Bytes) :
    sign lib s { chunks := chunks, final := GoError.eof } =
      ((if (s.SignWithAlgorithm lib.rand
              (dataMessageWrapper (lib.sha512 chunks.flatten).val) (algo s)).2.isSome then none
        else (s.SignWithAlgorithm lib.rand
              (dataMessageWrapper (lib.sha512 chunks.flatten).val) (algo s)).1,
        (s.SignWithAlgorithm lib.rand
              (dataMessageWrapper (lib.sha512 chunks.flatten).val) (algo s)).2),
       List.replicate (chunks.length + 1) Event.read ++
        [Event.signWithAlgorithm (dataMessageWrapper (lib.sha512 chunks.flatten).val) (algo s)]) := by
  simp only [sign, ioCopy_eq]
  simp only [if_true, List.nil_append]
  split <;> simp_all

theorem sign_other (lib : Lib) (s : AlgorithmSigner) (chunks : List Bytes) (msg : String) :
    sign lib s { chunks := chunks, final := GoError.other msg } =
      ((none, some (GoError.other msg)), List.replicate (chunks.length + 1) Event.read) := by
  simp [sign, ioCopy_eq]

theorem dataMessageWrapper_bytes (d : Bytes) :
    (dataMessageWrapper d).map Fin.val =
      [83, 83, 72, 83, 73, 71] ++ [0, 0, 0, 4] ++ [102, 105, 108, 101] ++ [0, 0, 0, 0] ++
      [0, 0, 0, 6] ++ [115, 104, 97, 53, 49, 50] ++
      [d.length / 2 ^ 24 % 256, d.length / 2 ^ 16 % 256, d.length / 2 ^ 8 % 256,
        d.length % 256] ++ d.map Fin.val := by
  simp [dataMessageWrapper, Marshal, marshalString, appendU32, magicHeader,
    defaultHashAlgorithm, str, Fin.ofNat]
  decide

theorem parseString_marshalString (s rest : Bytes) (h : s.length + rest.length < 2 ^ 32) :
    parseString (marshalString [] s ++ rest) = some (s, rest) := by
  have e0 : (Fin.ofNat (s.length / 2 ^ 24 % 256) : Byte).val = s.length / 2 ^ 24 % 256 :=
    val_ofNat_mod _
  have e1 : (Fin.ofNat (s.length / 2 ^ 16 % 256) : Byte).val = s.length / 2 ^ 16 % 256 :=
    val_ofNat_mod _
  have e2 : (Fin.ofNat (s.length / 2 ^ 8 % 256) : Byte).val = s.length / 2 ^ 8 % 256 :=
    val_ofNat_mod _
  have e3 : (Fin.ofNat (s.length % 256) : Byte).val = s.length % 256 := by
    simp [Fin.ofNat]
  have hlen : s.length / 2 ^ 24 % 256 * 2 ^ 24 + s.length / 2 ^ 16 % 256 * 2 ^ 16 +
      s.length / 2 ^ 8 % 256 * 2 ^ 8 + s.length % 256 = s.length := by
    omega
  have hmod : ¬ (s.length + rest.length) % 2 ^ 32 < s.length := by
    rw [Nat.mod_eq_of_lt h]
    omega
  simp only [marshalString, appendU32, List.nil_append, List.cons_append, parseString, e0, e1,
    e2, e3, hlen, List.length_append, hmod, if_false]
  simp

theorem Marshal_eq (w : messageWrapper) :
    Marshal w = marshalString [] w.Namespace ++ (marshalString [] w.Reserved ++
      (marshalString [] w.HashAlgorithm ++ (marshalString [] w.Hash ++ []))) := by
  simp [Marshal, marshalString, appendU32]

theorem length_marshalString (s : Bytes) : (marshalString [] s).length = s.length + 4 := by
  simp [marshalString, appendU32]

theorem length_Marshal (w : messageWrapper) :
    (Marshal w).length =
      w.Namespace.length + w.Reserved.length + w.HashAlgorithm.length + w.Hash.length + 16 := by
  rw [Marshal_eq]
  simp only [List.length_append, length_marshalString, List.length_nil]
  omega

/-- Decoding inverts encoding on every wrapper whose encoding is shorter than
    2^32 bytes. -/
theorem Unmarshal_Marshal (w : messageWrapper) (h : (Marshal w).length < 2 ^ 32) :
    Unmarshal (Marshal w) = some w := by
  rw [length_Marshal] at h
  rw [Marshal_eq]
  unfold Unmarshal
  rw [parseString_marshalString _ _ (by
    simp only [List.length_append, length_marshalString, List.length_nil]; omega)]
  simp only []
  rw [parseString_marshalString _ _ (by
    simp only [List.length_append, length_marshalString, List.length_nil]; omega)]
  simp only []
  rw [parseString_marshalString _ _ (by
    simp only [List.length_append, length_marshalString, List.length_nil]; omega)]
  simp only []
  rw [parseString_marshalString _ _ (by
    simp only [List.length_append, length_marshalString, List.length_nil]; omega)]
  simp

/-- The wrapper that `sign` builds for a 64-byte digest is decoded from its
    encoding. -/
theorem Unmarshal_Marshal_sign (mh : Bytes) (h : mh.length = 64) :
    Unmarshal (Marshal { Namespace := str "file", Reserved := [],
                         HashAlgorithm := defaultHashAlgorithm, Hash := mh }) =
      some { Namespace := str "file", Reserved := [],
             HashAlgorithm := defaultHashAlgorithm, Hash := mh } := by
  apply Unmarshal_Marshal
  rw [length_Marshal]
  have h1 : (str "file").length = 4 := by decide
  have h2 : defaultHashAlgorithm.length = 6 := by decide
  simp only [h, h1, h2, List.length_nil]
  decide

theorem dataMessageWrapper_injective : Function.Injective dataMessageWrapper := by
  intro d1 d2 h
  have h1 := congrArg (List.drop 32) h
  simpa [dataMessageWrapper, Marshal, marshalString, appendU32, magicHeader,
    defaultHashAlgorithm, str] using h1

/-! ## The claims -/

/-- C1: for every digest `d`, the byte string that `sign` builds for the signer
    is the 6 bytes "SSHSIG", then "file", the empty reserved field, "sha512"
    and `d`, in that order, each preceded by its length as 4 big-endian bytes
    (for the empty field the four bytes 0, 0, 0, 0), and nothing else. -/
theorem dataMessageWrapper_layout (d : Bytes) :
    (dataMessageWrapper d).map Fin.val =
      [83, 83, 72, 83, 73, 71] ++
      [0, 0, 0, 4] ++ [102, 105, 108, 101] ++
      [0, 0, 0, 0] ++
      [0, 0, 0, 6] ++ [115, 104, 97, 53, 49, 50] ++
      [d.length / 2 ^ 24 % 256, d.length / 2 ^ 16 % 256, d.length / 2 ^ 8 % 256,
        d.length % 256] ++ d.map Fin.val :=
  dataMessageWrapper_bytes d

/-- C2: whenever `sign` calls `SignWithAlgorithm`, the algorithm name it passes
    is "rsa-sha2-512" if the signer's public key type is "ssh-rsa" and the
    empty name otherwise; it is never "ssh-rsa". -/
theorem sign_algorithm (lib : Lib) (s : AlgorithmSigner) (m : Reader) (data a : Bytes)
    (h : Event.signWithAlgorithm data a ∈ (sign lib s m).2) :
    a = (if s.PublicKey.keyType = str "ssh-rsa" then str "rsa-sha2-512" else []) ∧
      a ≠ str "ssh-rsa" := by
  have ha : a = algo s := by
    obtain ⟨chunks, final⟩ := m
    cases final with
    | eof =>
      rw [sign_eof] at h
      simp at h
      exact h.2
    | other msg =>
      rw [sign_other] at h
      simp at h
  subst ha
  refine ⟨rfl, ?_⟩
  unfold algo KeyAlgoRSA KeyAlgoRSASHA512
  split <;> decide

/-- Witness of C2: an RSA signer is asked for "rsa-sha2-512". -/
theorem sign_algorithm_witness :
    Event.signWithAlgorithm (dataMessageWrapper (exampleDigest [7, 8]).val) (str "rsa-sha2-512") ∈
        (sign exampleLib rsaSigner { chunks := [[7], [8]], final := GoError.eof }).2 ∧
      (str "rsa-sha2-512" =
          (if rsaSigner.PublicKey.keyType = str "ssh-rsa" then str "rsa-sha2-512" else []) ∧
        str "rsa-sha2-512" ≠ str "ssh-rsa") :=
  ⟨by decide,
    sign_algorithm exampleLib rsaSigner { chunks := [[7], [8]], final := GoError.eof }
      (dataMessageWrapper (exampleDigest [7, 8]).val) (str "rsa-sha2-512") (by decide)⟩

/-- C4: when the message source is read to its end without error, `sign`
    makes one private-key operation, after the reads: `SignWithAlgorithm` on
    "SSHSIG" followed by the wrapper whose hash field is the whole 64-byte
    SHA-512 digest of all the bytes read, with length prefix 0, 0, 0, 64. The
    wrapper decodes to that digest, and the only error `sign` can return is the
    signer's. A source that yields no bytes is one case of this. -/
theorem sign_payload_digest (lib : Lib) (s : AlgorithmSigner) (chunks : List Bytes) :
    ∃ mh data : Bytes,
      mh = (lib.sha512 chunks.flatten).val ∧ mh.length = 64 ∧
      data = dataMessageWrapper mh ∧
      (sign lib s { chunks := chunks, final := GoError.eof }).2 =
        List.replicate (chunks.length + 1) Event.read ++
          [Event.signWithAlgorithm data (algo s)] ∧
      data.map Fin.val =
        [83, 83, 72, 83, 73, 71] ++
        [0, 0, 0, 4] ++ [102, 105, 108, 101] ++
        [0, 0, 0, 0] ++
        [0, 0, 0, 6] ++ [115, 104, 97, 53, 49, 50] ++
        [0, 0, 0, 64] ++ mh.map Fin.val ∧
      Unmarshal (data.drop 6) =
        some { Namespace := str "file", Reserved := [], HashAlgorithm := str "sha512",
               Hash := mh } ∧
      (sign lib s { chunks := chunks, final := GoError.eof }).1.2 =
        (s.SignWithAlgorithm lib.rand data (algo s)).2 := by
  have hlen : (lib.sha512 chunks.flatten).val.length = 64 := (lib.sha512 chunks.flatten).property
  refine ⟨_, _, rfl, hlen, rfl, ?_, ?_, ?_, ?_⟩
  · rw [sign_eof]
  · rw [dataMessageWrapper_bytes, hlen]
    rfl
  · have hd : (dataMessageWrapper (lib.sha512 chunks.flatten).val).drop 6 =
        Marshal { Namespace := str "file", Reserved := [], HashAlgorithm := str "sha512",
                  Hash := (lib.sha512 chunks.flatten).val } := by
      simp [dataMessageWrapper, magicHeader, defaultHashAlgorithm, str]
    rw [hd]
    exact Unmarshal_Marshal_sign _ hlen
  · rw [sign_eof]

/-- C5: every `messageWrapper` of the program is the one built in `sign`:
    namespace "file", empty reserved field, hash algorithm "sha512" and a
    64-byte digest as hash. For every such wrapper, decoding its encoding by
    reading four length-prefixed fields in order succeeds, leaves no byte over
    and returns exactly the four original values. -/
theorem messageWrapper_roundtrip (mh : Bytes) (h : mh.length = 64) :
    Unmarshal (Marshal { Namespace := str "file", Reserved := [],
                         HashAlgorithm := defaultHashAlgorithm, Hash := mh }) =
      some { Namespace := str "file", Reserved := [],
             HashAlgorithm := defaultHashAlgorithm, Hash := mh } :=
  Unmarshal_Marshal_sign mh h

/-- Witness of C5: the wrapper of the digest made of 64 bytes of value 7. -/
theorem messageWrapper_roundtrip_witness :
    (List.replicate 64 (7 : Byte)).length = 64 ∧
      Unmarshal (Marshal { Namespace := str "file", Reserved := [],
                           HashAlgorithm := defaultHashAlgorithm,
                           Hash := List.replicate 64 7 }) =
        some { Namespace := str "file", Reserved := [],
               HashAlgorithm := defaultHashAlgorithm, Hash := List.replicate 64 7 } :=
  ⟨by decide, messageWrapper_roundtrip (List.replicate 64 7) (by decide)⟩

/-- C6: when the message source fails with an error other than `io.EOF`, after
    any number of chunks, `sign` returns no signature and that very error, and
    the only calls it has made are the reads: no private-key operation. -/
theorem sign_read_error (lib : Lib) (s : AlgorithmSigner) (chunks : List Bytes) (msg : String) :
    (sign lib s { chunks := chunks, final := GoError.other msg }).1 =
        (none, some (GoError.other msg)) ∧
      (sign lib s { chunks := chunks, final := GoError.other msg }).2 =
        List.replicate (chunks.length + 1) Event.read ∧
      (sign lib s { chunks := chunks, final := GoError.other msg }).2.filter
        Event.isPrivateKeyOp = [] := by
  rw [sign_other]
  refine ⟨rfl, rfl, ?_⟩
  simp [List.filter_eq_nil_iff, Event.isPrivateKeyOp]

/-- C7: after a message that was read to its end, if `SignWithAlgorithm`
    returns the pair `(sg, e)`, then `sign` returns the error `e` unchanged,
    and the signature `sg` exactly when `e` is nil, none otherwise. -/
theorem sign_result (lib : Lib) (s : AlgorithmSigner) (chunks : List Bytes)
    (sg : Option Signature) (e : Option GoError)
    (h : s.SignWithAlgorithm lib.rand (dataMessageWrapper (lib.sha512 chunks.flatten).val)
          (algo s) = (sg, e)) :
    (sign lib s { chunks := chunks, final := GoError.eof }).1 =
      (if e.isSome then none else sg, e) := by
  rw [sign_eof, h]

/-- Witness of C7: a signer that fails while handing back a signature value. -/
theorem sign_result_witness :
    (sign exampleLib failingSigner { chunks := [[1], [2, 3]], final := GoError.eof }).1 =
      (none, some (GoError.other "agent refused operation")) :=
  sign_result exampleLib failingSigner [[1], [2, 3]] (some { Format := [], Blob := [] })
    (some (GoError.other "agent refused operation")) rfl

/-- C8: `Signer.SignMessage` reads the message to its end and calls the
    signer's `Sign` on exactly the bytes read. If that call returns `(sg, e)`,
    the result is `e` with no bytes when `e` is an error, and otherwise the
    armoring of `sg` with the signer's public key. If the read fails, the result
    is the read error with no bytes, and `Sign` is not called. -/
theorem SignMessage_spec (lib : Lib) (s : Signer) (chunks : List Bytes)
    (sg : Option Signature) (e : Option GoError)
    (h : s.signer.Sign lib.rand chunks.flatten = (sg, e)) :
    (s.SignMessage lib { chunks := chunks, final := GoError.eof }).1 =
        (if e.isSome then none else some (lib.Armor sg s.signer.PublicKey), e) ∧
      (s.SignMessage lib { chunks := chunks, final := GoError.eof }).2.filter
          Event.isPrivateKeyOp = [Event.sign chunks.flatten] ∧
      ∀ msg : String,
        s.SignMessage lib { chunks := chunks, final := GoError.other msg } =
          ((none, some (GoError.other msg)), List.replicate (chunks.length + 1) Event.read) := by
  refine ⟨?_, ?_, ?_⟩
  · simp only [Signer.SignMessage, ioReadAll_eq, if_true, List.nil_append, h]
    cases e <;> simp
  · simp only [Signer.SignMessage, ioReadAll_eq, if_true, List.nil_append, h]
    cases e <;>
      simp [List.filter_append, List.filter_eq_nil_iff.mpr, Event.isPrivateKeyOp,
        List.filter_cons]
  · intro msg
    simp [Signer.SignMessage, ioReadAll_eq]

/-- Witness of C8: the RSA signer, whose `Sign` succeeds, on a two-chunk
    message. -/
theorem SignMessage_spec_witness :
    ({ signer := rsaSigner } : Signer).SignMessage exampleLib
        { chunks := [[1], [2, 3]], final := GoError.eof } =
      ((some ([1, 2, 3] ++ str "ssh-rsa" ++ [1, 2, 3]), none),
        [Event.read, Event.read, Event.read, Event.sign [1, 2, 3],
          Event.armor (some { Format := str "ssh-rsa", Blob := [1, 2, 3] })
            rsaSigner.PublicKey]) ∧
    (({ signer := rsaSigner } : Signer).SignMessage exampleLib
        { chunks := [[1], [2, 3]], final := GoError.eof }).1 =
      (some (exampleLib.Armor (some { Format := str "ssh-rsa", Blob := [1, 2, 3] })
        rsaSigner.PublicKey), none) :=
  ⟨by decide,
    (SignMessage_spec exampleLib { signer := rsaSigner } [[1], [2, 3]]
      (some { Format := str "ssh-rsa", Blob := [1, 2, 3] }) none rfl).1⟩

/-- C9: the byte string built for the signer is an injective function of the
    digest, so two messages with different SHA-512 digests get different byte
    strings. -/
theorem dataMessageWrapper_ne_of_digest_ne (lib : Lib) (m1 m2 : Bytes)
    (h : (lib.sha512 m1).val ≠ (lib.sha512 m2).val) :
    Function.Injective dataMessageWrapper ∧
      dataMessageWrapper (lib.sha512 m1).val ≠ dataMessageWrapper (lib.sha512 m2).val :=
  ⟨dataMessageWrapper_injective, fun heq => h (dataMessageWrapper_injective heq)⟩

/-- Witness of C9: two messages of different length under the stand-in
    digest. -/
theorem dataMessageWrapper_ne_of_digest_ne_witness :
    (exampleLib.sha512 [1]).val ≠ (exampleLib.sha512 [1, 2]).val ∧
      dataMessageWrapper (exampleLib.sha512 [1]).val ≠
        dataMessageWrapper (exampleLib.sha512 [1, 2]).val :=
  ⟨by decide, (dataMessageWrapper_ne_of_digest_ne exampleLib [1] [1, 2] (by decide)).2⟩

/-- C10: when the key parser returns an error `e`, `Sign` returns no bytes and
    that very error, and the parse is the only call it has made: the message is
    not read and no signer is asked to sign. -/
theorem Sign_parse_error (lib : Lib) (sshPrivateKey : Bytes) (data : Reader)
    (sv : Option SignerValue) (e : GoError)
    (h : lib.ParsePrivateKey sshPrivateKey = (sv, some e)) :
    Sign lib sshPrivateKey data = ((none, some e), [Event.parsePrivateKey sshPrivateKey]) := by
  simp [Sign, h]

/-- Witness of C10: a parser that finds no key in the text. -/
theorem Sign_parse_error_witness :
    Sign exampleLib (str "not a key") { chunks := [[1]], final := GoError.eof } =
      ((none, some (GoError.other "ssh: no key found")),
        [Event.parsePrivateKey (str "not a key")]) :=
  Sign_parse_error exampleLib (str "not a key") { chunks := [[1]], final := GoError.eof }
    none (GoError.other "ssh: no key found") rfl

end SSHSig
